import Mathlib

/-!
Verification development for the LARS streaming language-model adapter
(`src/lars-language-model.ts`).

The adapter's core is `doStream`: after synchronous precondition checks
(authorization header, text-only prompt parts) it pipes the backend's SSE
byte stream through a `TransformStream` that

  * appends each decoded text chunk to a string buffer,
  * repeatedly slices off complete frames delimited by a blank line
    (the two-character separator made by two newline characters),
  * discards frames that are empty after trimming or that begin with the
    sentinel terminator, strips one leading SSE tag, parses the payload as
    JSON, validates it against a zod schema, and
  * translates every validated backend event into zero or more normalized
    stream parts.

The development below embeds those pieces shallowly: text is `List Char`
(one entry per Unicode scalar value), JSON values are an inductive type
with an executable recursive-descent reimplementation of the strict
`JSON.parse` grammar, the zod schema is an executable validator, and the
transform loop is a pure function from a buffer and a chunk to the emitted
parts plus the retained buffer.  JSON numbers are kept exactly as a
decimal mantissa and a power-of-ten exponent; the pipeline never computes
with them, it only passes them through, so no floating-point rounding is
modelled.
-/

/-- A JSON number as lexed: `mantissa * 10 ^ exp10`.  The source receives
IEEE doubles from `JSON.parse`; since the adapter only moves the numbers
around, an exact decimal carrier is a faithful embedding. -/
structure JNum where
  mantissa : Int
  exp10 : Int
deriving DecidableEq, Repr

/-- The JSON number `0`, the default used by the `finish` translation. -/
def jnum0 : JNum := ⟨0, 0⟩

/-- JSON values as produced by `JSON.parse`.  Object fields are kept in
source order; lookups take the last binding, matching the way repeated
keys overwrite each other when the JS object is built. -/
inductive JsonVal where
  | jnull : JsonVal
  | jbool (b : Bool) : JsonVal
  | jnum (n : JNum) : JsonVal
  | jstr (s : List Char) : JsonVal
  | jarr (xs : List JsonVal) : JsonVal
  | jobj (fields : List (List Char × JsonVal)) : JsonVal
deriving Repr

/-- Whitespace accepted between JSON tokens (`JSON.parse` grammar). -/
def isJsonWsChar (c : Char) : Bool :=
  c = ' ' || c = '\t' || c = '\n' || c = '\r'

/-- Drop leading JSON whitespace. -/
def skipJsonWs (s : List Char) : List Char := s.dropWhile isJsonWsChar

/-- Value of one hexadecimal digit, for string `\u` escapes. -/
def hexVal (c : Char) : Option Nat :=
  if '0' ≤ c ∧ c ≤ '9' then some (c.toNat - '0'.toNat)
  else if 'a' ≤ c ∧ c ≤ 'f' then some (c.toNat - 'a'.toNat + 10)
  else if 'A' ≤ c ∧ c ≤ 'F' then some (c.toNat - 'A'.toNat + 10)
  else none

/-- Body of a JSON string after the opening quote: handles the escape
sequences of the JSON grammar and rejects raw control characters.  A
`\u` escape denoting a UTF-16 surrogate half has no scalar value; like
every `Char.ofNat` fallback it maps to the null character (the adapter
never inspects string contents, so this boundary choice is inert). -/
def parseStringAux : Nat → List Char → List Char → Option (List Char × List Char)
  | 0, _, _ => none
  | _ + 1, acc, '"' :: rest => some (acc.reverse, rest)
  | fuel + 1, acc, '\\' :: rest =>
    match rest with
    | '"' :: r => parseStringAux fuel ('"' :: acc) r
    | '\\' :: r => parseStringAux fuel ('\\' :: acc) r
    | '/' :: r => parseStringAux fuel ('/' :: acc) r
    | 'b' :: r => parseStringAux fuel ('\x08' :: acc) r
    | 'f' :: r => parseStringAux fuel ('\x0c' :: acc) r
    | 'n' :: r => parseStringAux fuel ('\n' :: acc) r
    | 'r' :: r => parseStringAux fuel ('\r' :: acc) r
    | 't' :: r => parseStringAux fuel ('\t' :: acc) r
    | 'u' :: h1 :: h2 :: h3 :: h4 :: r =>
      match hexVal h1, hexVal h2, hexVal h3, hexVal h4 with
      | some a, some b, some c, some d =>
        parseStringAux fuel (Char.ofNat (((a * 16 + b) * 16 + c) * 16 + d) :: acc) r
      | _, _, _, _ => none
    | _ => none
  | fuel + 1, acc, c :: rest =>
    if c.toNat < 0x20 then none else parseStringAux fuel (c :: acc) rest
  | _, _, [] => none

/-- Numeric value of a decimal digit character. -/
def digitVal (c : Char) : Nat := c.toNat - '0'.toNat

/-- Split a leading run of decimal digits off the input. -/
def takeDigits (s : List Char) : List Char × List Char :=
  (s.takeWhile Char.isDigit, s.dropWhile Char.isDigit)

/-- Decimal digits to a natural number. -/
def digitsToNat (ds : List Char) : Nat :=
  ds.foldl (fun a c => a * 10 + digitVal c) 0

/-- The integer part of a JSON number: `0`, or a nonzero digit followed by
more digits (leading zeros are a syntax error in `JSON.parse`). -/
def parseIntDigits : List Char → Option (List Char × List Char)
  | '0' :: rest => some (['0'], rest)
  | c :: rest =>
    if c.isDigit then
      some (c :: (takeDigits rest).1, (takeDigits rest).2)
    else none
  | [] => none

/-- Optional fraction part; a point must be followed by at least one digit. -/
def parseFrac (s : List Char) : Option (List Char × List Char) :=
  match s with
  | '.' :: r =>
    if (takeDigits r).1.isEmpty then none else some ((takeDigits r).1, (takeDigits r).2)
  | _ => some ([], s)

/-- Optional exponent part; returns (negated?, digits, rest). -/
def parseExp (s : List Char) : Option (Bool × List Char × List Char) :=
  match s with
  | c :: r =>
    if c = 'e' ∨ c = 'E' then
      match r with
      | '+' :: rr => if (takeDigits rr).1.isEmpty then none
          else some (false, (takeDigits rr).1, (takeDigits rr).2)
      | '-' :: rr => if (takeDigits rr).1.isEmpty then none
          else some (true, (takeDigits rr).1, (takeDigits rr).2)
      | _ => if (takeDigits r).1.isEmpty then none
          else some (false, (takeDigits r).1, (takeDigits r).2)
    else some (false, [], c :: r)
  | [] => some (false, [], [])

/-- A JSON number literal per the `JSON.parse` grammar. -/
def parseNumber (s : List Char) : Option (JNum × List Char) :=
  let (neg, s1) :=
    match s with
    | '-' :: rest => (true, rest)
    | _ => (false, s)
  match parseIntDigits s1 with
  | none => none
  | some (ids, s2) =>
    match parseFrac s2 with
    | none => none
    | some (fds, s3) =>
      match parseExp s3 with
      | none => none
      | some (eneg, eds, s4) =>
        let mag : Int := (digitsToNat (ids ++ fds) : Int)
        let mantissa : Int := if neg then -mag else mag
        let e : Int := if eneg then -(digitsToNat eds : Int) else (digitsToNat eds : Int)
        some (⟨mantissa, e - (fds.length : Int)⟩, s4)

mutual

/-- One JSON value (leading whitespace allowed), returning the rest of the
input.  The fuel only bounds recursion depth; `jsonParse` supplies enough
for any input of the given length. -/
def parseValue : Nat → List Char → Option (JsonVal × List Char)
  | 0, _ => none
  | fuel + 1, s =>
    match skipJsonWs s with
    | '{' :: rest => parseObjectBody fuel rest
    | '[' :: rest => parseArrayBody fuel rest
    | '"' :: rest =>
      match parseStringAux (rest.length + 1) [] rest with
      | some (str, r) => some (.jstr str, r)
      | none => none
    | 't' :: 'r' :: 'u' :: 'e' :: rest => some (.jbool true, rest)
    | 'f' :: 'a' :: 'l' :: 's' :: 'e' :: rest => some (.jbool false, rest)
    | 'n' :: 'u' :: 'l' :: 'l' :: rest => some (.jnull, rest)
    | s' =>
      match parseNumber s' with
      | some (n, r) => some (.jnum n, r)
      | none => none

/-- Object body, called just after the opening brace. -/
def parseObjectBody : Nat → List Char → Option (JsonVal × List Char)
  | 0, _ => none
  | fuel + 1, s =>
    match skipJsonWs s with
    | '}' :: rest => some (.jobj [], rest)
    | '"' :: rest =>
      match parseStringAux (rest.length + 1) [] rest with
      | some (k, s2) =>
        match skipJsonWs s2 with
        | ':' :: s3 =>
          match parseValue fuel s3 with
          | some (v, s4) => parseObjectRest fuel [(k, v)] s4
          | none => none
        | _ => none
      | none => none
    | _ => none

/-- Remaining `, "key": value` pairs of an object, then the closing brace. -/
def parseObjectRest : Nat → List (List Char × JsonVal) → List Char →
    Option (JsonVal × List Char)
  | 0, _, _ => none
  | fuel + 1, acc, s =>
    match skipJsonWs s with
    | '}' :: rest => some (.jobj acc.reverse, rest)
    | ',' :: s2 =>
      match skipJsonWs s2 with
      | '"' :: rest =>
        match parseStringAux (rest.length + 1) [] rest with
        | some (k, s3) =>
          match skipJsonWs s3 with
          | ':' :: s4 =>
            match parseValue fuel s4 with
            | some (v, s5) => parseObjectRest fuel ((k, v) :: acc) s5
            | none => none
          | _ => none
        | none => none
      | _ => none
    | _ => none

/-- Array body, called just after the opening bracket. -/
def parseArrayBody : Nat → List Char → Option (JsonVal × List Char)
  | 0, _ => none
  | fuel + 1, s =>
    match skipJsonWs s with
    | ']' :: rest => some (.jarr [], rest)
    | s' =>
      match parseValue fuel s' with
      | some (v, s2) => parseArrayRest fuel [v] s2
      | none => none

/-- Remaining `, value` items of an array, then the closing bracket. -/
def parseArrayRest : Nat → List JsonVal → List Char → Option (JsonVal × List Char)
  | 0, _, _ => none
  | fuel + 1, acc, s =>
    match skipJsonWs s with
    | ']' :: rest => some (.jarr acc.reverse, rest)
    | ',' :: s2 =>
      match parseValue fuel s2 with
      | some (v, s3) => parseArrayRest fuel (v :: acc) s3
      | none => none
    | _ => none

end

/-- The embedding of `JSON.parse`: one value, then only trailing
whitespace.  Failure (`none`) models the thrown `SyntaxError`. -/
def jsonParse (s : List Char) : Option JsonVal :=
  match parseValue (2 * s.length + 4) s with
  | some (v, rest) => if (skipJsonWs rest).isEmpty then some v else none
  | none => none

/-! ## The zod schema (`larsBackendStreamEventSchema`) -/

/-- The `type` enumeration of a backend stream event (`z.enum([...])`). -/
inductive EventType where
  | start | metadata
  | reasoningStart | reasoningDelta | reasoningEnd
  | textStart | textDelta | textEnd
  | error | finish | done
deriving DecidableEq, Repr

/-- The `usage` sub-object: `inputTokens`, `outputTokens` and
`totalTokens` are required numbers, `reasoningTokens` is optional. -/
structure Usage where
  inputTokens : JNum
  outputTokens : JNum
  reasoningTokens : Option JNum
  totalTokens : JNum
deriving DecidableEq, Repr

/-- A backend stream event after successful schema validation
(`LarsBackendStreamEvent`).  `none` is JS `undefined` (field absent). -/
structure LarsEvent where
  type : EventType
  messageId : Option (List Char)
  id : Option (List Char)
  delta : Option (List Char)
  errorText : Option (List Char)
  finishReason : Option (List Char)
  usage : Option Usage
  answer : Option JsonVal
  data : Option (List (List Char × JsonVal))
deriving Repr

/-- Last-wins field lookup in a parsed JSON object, matching the value the
built JS object ends up with when a key is repeated. -/
def getField : List (List Char × JsonVal) → List Char → Option JsonVal
  | [], _ => none
  | (k', v) :: rest, k =>
    match getField rest k with
    | some w => some w
    | none => if k' = k then some v else none

/-- The check `z.string()` on one value. -/
def asStr : JsonVal → Option (List Char)
  | .jstr s => some s
  | _ => none

/-- The check `z.number()` on one value. -/
def asNum : JsonVal → Option JNum
  | .jnum n => some n
  | _ => none

/-- The `.optional()` wrapper: an absent field passes as `none`; a present
field must satisfy the inner check (`null` in particular fails). -/
def optField {α : Type} (f : JsonVal → Option α) : Option JsonVal → Option (Option α)
  | none => some none
  | some v =>
    match f v with
    | some a => some (some a)
    | none => none

/-- Decode the `type` enumeration string. -/
def eventTypeOfChars (s : List Char) : Option EventType :=
  if s = "start".toList then some .start
  else if s = "metadata".toList then some .metadata
  else if s = "reasoning-start".toList then some .reasoningStart
  else if s = "reasoning-delta".toList then some .reasoningDelta
  else if s = "reasoning-end".toList then some .reasoningEnd
  else if s = "text-start".toList then some .textStart
  else if s = "text-delta".toList then some .textDelta
  else if s = "text-end".toList then some .textEnd
  else if s = "error".toList then some .error
  else if s = "finish".toList then some .finish
  else if s = "done".toList then some .done
  else none

/-- The inner `usage` object schema. -/
def validateUsage : JsonVal → Option Usage
  | .jobj fs => do
    let i ← (getField fs "inputTokens".toList).bind asNum
    let o ← (getField fs "outputTokens".toList).bind asNum
    let r ← optField asNum (getField fs "reasoningTokens".toList)
    let t ← (getField fs "totalTokens".toList).bind asNum
    pure ⟨i, o, r, t⟩
  | _ => none

/-- The check `z.record(z.unknown())` for the `data` field: any plain object. -/
def asRecord : JsonVal → Option (List (List Char × JsonVal))
  | .jobj fs => some fs
  | _ => none

/-- The schema `larsBackendStreamEventSchema` under `safeParse`: `none` is a failed
validation, `some e` the typed event (unknown keys are stripped, as by a
non-strict zod object). -/
def validateEvent : JsonVal → Option LarsEvent
  | .jobj fs => do
    let tstr ← (getField fs "type".toList).bind asStr
    let ty ← eventTypeOfChars tstr
    let messageId ← optField asStr (getField fs "messageId".toList)
    let id ← optField asStr (getField fs "id".toList)
    let delta ← optField asStr (getField fs "delta".toList)
    let errorText ← optField asStr (getField fs "errorText".toList)
    let finishReason ← optField asStr (getField fs "finishReason".toList)
    let usage ← optField validateUsage (getField fs "usage".toList)
    let answer := getField fs "answer".toList
    let dataField ← optField asRecord (getField fs "data".toList)
    pure ⟨ty, messageId, id, delta, errorText, finishReason, usage, answer, dataField⟩
  | _ => none

/-! ## The event translator (the `switch` on `event.type`) -/

/-- The token-usage object attached to a `finish` stream part. -/
structure FinishUsage where
  inputTokens : JNum
  outputTokens : JNum
  totalTokens : JNum
  reasoningTokens : Option JNum
deriving DecidableEq, Repr

/-- A normalized output event (`LanguageModelV2StreamPart`), restricted to
the variants this adapter emits.  `errorPart` keeps the message the
`Error` object is built from. -/
inductive StreamPart where
  | streamStart
  | dataPart (payload : List (List Char × JsonVal))
  | reasoningStart (id : List Char)
  | reasoningDelta (id : List Char) (delta : List Char)
  | reasoningEnd (id : List Char)
  | textStart (id : List Char)
  | textDelta (id : List Char) (delta : List Char)
  | textEnd (id : List Char)
  | errorPart (message : List Char)
  | finishPart (finishReason : List Char) (usage : FinishUsage)
deriving Repr

/-- Default block id for reasoning segments. -/
def rbDefault : List Char := "reasoning-block".toList

/-- Default block id for text segments. -/
def tbDefault : List Char := "text-block".toList

/-- The translation of one validated event: the body of the
`switch (event.type)` statement, one case per variant.  Empty-string
deltas are skipped because JS `if (event.delta)` is false on `''`. -/
def translateEvent (e : LarsEvent) : List StreamPart :=
  match e.type with
  | .start => [.streamStart]
  | .metadata =>
    match e.data with
    | some d => [.dataPart d]
    | none => []
  | .reasoningStart => [.reasoningStart (e.id.getD rbDefault)]
  | .reasoningDelta =>
    match e.delta with
    | some d => if d = [] then [] else [.reasoningDelta (e.id.getD rbDefault) d]
    | none => []
  | .reasoningEnd => [.reasoningEnd (e.id.getD rbDefault)]
  | .textStart => [.textStart (e.id.getD tbDefault)]
  | .textDelta =>
    match e.delta with
    | some d => if d = [] then [] else [.textDelta (e.id.getD tbDefault) d]
    | none => []
  | .textEnd => [.textEnd (e.id.getD tbDefault)]
  | .error => [.errorPart (e.errorText.getD "An unknown backend error occurred.".toList)]
  | .finish =>
    [.finishPart (e.finishReason.getD "stop".toList)
      ⟨(e.usage.map Usage.inputTokens).getD jnum0,
       (e.usage.map Usage.outputTokens).getD jnum0,
       (e.usage.map Usage.totalTokens).getD jnum0,
       e.usage.bind Usage.reasoningTokens⟩]
  | .done => []

/-! ## Per-frame processing (the body of the `while` loop) -/

/-- Characters removed by JS `String.trim` (the WhiteSpace and
LineTerminator classes; the exotic Unicode space separators are included
so that `message.trim() === ''` is modelled on the full class). -/
def isJsWsChar (c : Char) : Bool :=
  c = ' ' || c = '\t' || c = '\n' || c = '\r' || c = '\x0b' || c = '\x0c' ||
  c = '\u00A0' || c = '\u1680' || ('\u2000' ≤ c && c ≤ '\u200A') ||
  c = '\u2028' || c = '\u2029' || c = '\u202F' || c = '\u205F' ||
  c = '\u3000' || c = '\uFEFF'

/-- JS `String.trim`. -/
def trimChars (s : List Char) : List Char :=
  ((s.dropWhile isJsWsChar).reverse.dropWhile isJsWsChar).reverse

/-- Whether `pre` is a leading segment of `s` (JS `String.startsWith`). -/
def startsWithChars : List Char → List Char → Bool
  | [], _ => true
  | _ :: _, [] => false
  | p :: ps, c :: cs => p = c && startsWithChars ps cs

/-- The SSE payload tag stripped before JSON parsing. -/
def dataTag : List Char := "data: ".toList

/-- The sentinel terminator frame. -/
def doneTag : List Char := "data: [DONE]".toList

/-- The discard guard on an extracted frame:
`message.trim() === '' || message.startsWith('data: [DONE]')`. -/
def isDiscarded (m : List Char) : Bool :=
  (trimChars m).isEmpty || startsWithChars doneTag m

/-- The strip `message.replace(/^data: /, '')`: the regex is anchored and unflagged,
so at most one leading occurrence of the tag is removed. -/
def dropDataTag (m : List Char) : List Char :=
  if startsWithChars dataTag m then m.drop dataTag.length else m

/-- Everything done with one extracted frame: the discard guard, the tag
strip, `JSON.parse` (whose `SyntaxError` lands in the `catch` that only
logs), `safeParse` (whose failure only logs), then the translation
`switch`.  Every failure path falls through to the next frame, which is
why the function is total and returns `[]` rather than raising. -/
def processMessage (m : List Char) : List StreamPart :=
  if isDiscarded m then []
  else
    match jsonParse (dropDataTag m) with
    | none => []
    | some j =>
      match validateEvent j with
      | none => []
      | some e => translateEvent e

/-- The validated event a frame contributes, if any: the same guards as
`processMessage` with the translation step left off. -/
def validEventOfFrame (m : List Char) : Option LarsEvent :=
  if isDiscarded m then none
  else
    match jsonParse (dropDataTag m) with
    | none => none
    | some j => validateEvent j

/-! ## The frame reassembler (buffer and separator loop) -/

/-- The `while` loop over `buffer.indexOf('\n\n')`: all frames strictly
before the first separator-free tail, plus that tail as the retained
buffer.  The first two cases are a buffer with no room for a separator;
in the third the separator is either at position zero (slice off an
empty frame) or strictly later (the head character belongs to the first
frame, or there is no frame at all). -/
def splitFrames : List Char → List (List Char) × List Char
  | [] => ([], [])
  | [c] => ([], [c])
  | c :: d :: rest =>
    if c = '\n' ∧ d = '\n' then
      (([] : List Char) :: (splitFrames rest).1, (splitFrames rest).2)
    else
      match (splitFrames (d :: rest)).1 with
      | [] => ([], c :: (splitFrames (d :: rest)).2)
      | f :: fs => ((c :: f) :: fs, (splitFrames (d :: rest)).2)

/-- Whether the two-newline frame separator occurs anywhere in `s`. -/
def hasSep : List Char → Bool
  | [] => false
  | [_] => false
  | c :: d :: rest => (c = '\n' && d = '\n') || hasSep (d :: rest)

/-- One call of the `TransformStream`'s `transform(chunk, controller)`:
append the chunk to the buffer, drain every complete frame through
`processMessage`, keep the separator-free tail. -/
def transformStep (buffer chunk : List Char) : List StreamPart × List Char :=
  ((splitFrames (buffer ++ chunk)).1.flatMap processMessage,
   (splitFrames (buffer ++ chunk)).2)

/-- Run the transform over a whole chunk sequence from a given buffer,
concatenating the emitted parts in order. -/
def runChunksFrom : List Char → List (List Char) → List StreamPart
  | _, [] => []
  | buffer, c :: cs =>
    (transformStep buffer c).1 ++ runChunksFrom (transformStep buffer c).2 cs

/-- The full stream transform on a chunk sequence, starting from the
empty buffer `let buffer = ''` of a fresh `doStream` call. -/
def runChunks (cs : List (List Char)) : List StreamPart :=
  runChunksFrom [] cs

/-! ## The `doStream` precondition gate and request construction -/

/-- One prompt content part; `type` is the discriminator string of the
`LanguageModelV2` content union, `text` its payload when textual. -/
structure ContentPart where
  type : List Char
  text : List Char

/-- One prompt message. -/
structure PromptMessage where
  role : List Char
  content : List ContentPart

/-- The serialized request message: role plus all text parts joined. -/
structure RequestMessage where
  role : List Char
  content : List Char
deriving Repr

/-- The JSON body sent to `POST {baseURL}/api/v1/chat`. -/
structure RequestBody where
  model_id : List Char
  messages : List RequestMessage

/-- What `doStream` does before any byte of network I/O: either it throws
(no request exists, no stream part is ever produced) or it reaches the
`fetch` with the serialized body. -/
inductive DoStreamOutcome where
  | authFailure
  | unsupportedFailure (partType : List Char)
  | request (body : RequestBody)

/-- The `Authorization` header key. -/
def authKey : List Char := "Authorization".toList

/-- First-match lookup of a header value. -/
def lookupHeaderVal : List (List Char × List Char) → List Char → Option (List Char)
  | [], _ => none
  | (k, v) :: rest, key => if k = key then some v else lookupHeaderVal rest key

/-- The access `headers?.['Authorization']`: `none` when the headers object itself is
absent or has no such property. -/
def getHeader (headers : Option (List (List Char × List Char))) (key : List Char) :
    Option (List Char) :=
  match headers with
  | none => none
  | some hs => lookupHeaderVal hs key

/-- JS falsiness of `headers?.['Authorization']`: `undefined` or `''`. -/
def authHeaderFalsy (headers : Option (List (List Char × List Char))) : Bool :=
  match getHeader headers authKey with
  | none => true
  | some v => v.isEmpty

/-- The first content part whose `type` is not `'text'`, scanning
messages then parts in order — the part whose discovery throws the
`UnsupportedFunctionalityError`. -/
def firstUnsupportedPart : List ContentPart → Option (List Char)
  | [] => none
  | p :: rest =>
    if p.type = "text".toList then firstUnsupportedPart rest else some p.type

/-- The nested `for` loops over `prompt` and `message.content`. -/
def firstUnsupportedMsg : List PromptMessage → Option (List Char)
  | [] => none
  | m :: rest =>
    match firstUnsupportedPart m.content with
    | some t => some t
    | none => firstUnsupportedMsg rest

/-- Lines 81–112 of `doStream`: the authorization check, the content-kind
check, then the request body (`content` joins the text of every part,
non-text parts contributing `''`). -/
def doStreamGate (modelId : List Char)
    (headers : Option (List (List Char × List Char)))
    (prompt : List PromptMessage) : DoStreamOutcome :=
  if authHeaderFalsy headers then .authFailure
  else
    match firstUnsupportedMsg prompt with
    | some t => .unsupportedFailure t
    | none =>
      .request ⟨modelId,
        prompt.map fun m =>
          ⟨m.role,
           (m.content.map fun p => if p.type = "text".toList then p.text else []).flatten⟩⟩

/-! ## Structural lemmas about the frame reassembler -/

/-- Induction along the two-character window `splitFrames` and `hasSep`
recurse with. -/
def chars2Ind {P : List Char → Prop} (h0 : P []) (h1 : ∀ c, P [c])
    (h2 : ∀ c d rest, P rest → P (d :: rest) → P (c :: d :: rest)) : ∀ s, P s
  | [] => h0
  | [c] => h1 c
  | c :: d :: rest => h2 c d rest (chars2Ind h0 h1 h2 rest) (chars2Ind h0 h1 h2 (d :: rest))
termination_by s => s.length

/-- If the loop found no frame, the buffer was left untouched. -/
theorem splitFrames_nil_frames : ∀ s, (splitFrames s).1 = [] → (splitFrames s).2 = s := by
  refine chars2Ind ?_ ?_ ?_
  · intro _; rfl
  · intro c _; rfl
  · intro c d rest _ ih2 h
    by_cases hnl : c = '\n' ∧ d = '\n'
    · obtain ⟨rfl, rfl⟩ := hnl
      simp [splitFrames] at h
    · rcases hfs : (splitFrames (d :: rest)).1 with _ | ⟨f, fs⟩
      · have h2 := ih2 hfs
        simp [splitFrames, hnl, hfs, h2]
      · simp [splitFrames, hnl, hfs] at h

/-- The retained buffer never contains the frame separator: every
complete frame was sliced off before the loop ended. -/
theorem splitFrames_rem_no_sep : ∀ s, hasSep (splitFrames s).2 = false := by
  refine chars2Ind ?_ ?_ ?_
  · rfl
  · intro c; rfl
  · intro c d rest ih1 ih2
    by_cases hnl : c = '\n' ∧ d = '\n'
    · obtain ⟨rfl, rfl⟩ := hnl
      simpa [splitFrames] using ih1
    · rcases hfs : (splitFrames (d :: rest)).1 with _ | ⟨f, fs⟩
      · have hrem := splitFrames_nil_frames (d :: rest) hfs
        have htl : hasSep (d :: rest) = false := by rw [← hrem]; exact ih2
        simp [splitFrames, hnl, hfs, hasSep, hrem, htl]
        exact fun hc hd => hnl ⟨hc, hd⟩
      · simpa [splitFrames, hnl, hfs] using ih2

/-- A separator-free buffer passes through the loop unchanged. -/
theorem splitFrames_of_no_sep : ∀ s, hasSep s = false → splitFrames s = ([], s) := by
  refine chars2Ind ?_ ?_ ?_
  · intro _; rfl
  · intro c _; rfl
  · intro c d rest _ ih2 h
    rw [hasSep] at h
    rcases Bool.or_eq_false_iff.mp h with ⟨h1, h2⟩
    have hnl : ¬(c = '\n' ∧ d = '\n') := by
      intro hcd
      rw [hcd.1, hcd.2] at h1
      simp at h1
    have := ih2 h2
    simp [splitFrames, hnl, this]

/-- Draining the loop chunk by chunk finds the same frames, in order, as
draining it on the concatenation: the first separator of `a ++ b` lies in
`a` whenever `a` contains one at all, so appending `b` never changes a
frame already extracted. -/
theorem splitFrames_append : ∀ a b : List Char,
    (splitFrames (a ++ b)).1
      = (splitFrames a).1 ++ (splitFrames ((splitFrames a).2 ++ b)).1
    ∧ (splitFrames (a ++ b)).2 = (splitFrames ((splitFrames a).2 ++ b)).2 := by
  refine chars2Ind ?_ ?_ ?_
  · intro b; simp [splitFrames]
  · intro c b; simp [splitFrames]
  · intro c d rest ih1 ih2 b
    by_cases hnl : c = '\n' ∧ d = '\n'
    · obtain ⟨rfl, rfl⟩ := hnl
      have h := ih1 b
      constructor
      · simp only [List.cons_append, splitFrames, if_pos (⟨rfl, rfl⟩ : '\n' = '\n' ∧ '\n' = '\n')]
        simpa using h.1
      · simp only [List.cons_append, splitFrames, if_pos (⟨rfl, rfl⟩ : '\n' = '\n' ∧ '\n' = '\n')]
        exact h.2
    · have h21 := (ih2 b).1
      have h22 := (ih2 b).2
      simp only [List.cons_append] at h21 h22
      rcases hfs : (splitFrames (d :: rest)).1 with _ | ⟨f, fs⟩
      · have hrem := splitFrames_nil_frames (d :: rest) hfs
        have hsa : splitFrames (c :: d :: rest) = ([], c :: d :: rest) := by
          simp [splitFrames, hnl, hfs, hrem]
        constructor
        · rw [hsa]; simp
        · rw [hsa]
      · rw [hfs] at h21
        constructor
        · simp only [List.cons_append, List.append_eq, splitFrames, if_neg hnl, hfs, h21]
        · simp only [List.cons_append, List.append_eq, splitFrames, if_neg hnl, hfs, h21, h22]

/-- Processing every frame of `s` in extraction order. -/
def processAll (s : List Char) : List StreamPart :=
  (splitFrames s).1.flatMap processMessage

/-- From a separator-free buffer, the incremental run over a chunk list
emits exactly the events of the fully assembled text. -/
theorem runChunksFrom_eq_processAll : ∀ (cs : List (List Char)) (b : List Char),
    hasSep b = false → runChunksFrom b cs = processAll (b ++ cs.flatten) := by
  intro cs
  induction cs with
  | nil =>
    intro b hb
    simp [runChunksFrom, processAll, splitFrames_of_no_sep b hb]
  | cons c cs ih =>
    intro b _
    have hb' : hasSep (splitFrames (b ++ c)).2 = false := splitFrames_rem_no_sep (b ++ c)
    have h := splitFrames_append (b ++ c) cs.flatten
    simp [runChunksFrom, transformStep, processAll, ih _ hb',
      ← List.append_assoc, h.1, List.flatMap_append]

/-! ## Claim theorems -/

/-- C1: chunk-boundary independence.  Any two chunkings of the same
logical text stream, fed through the transform from the fresh empty
buffer, emit the identical sequence of normalized events in the same
order — in particular a frame cut by a chunk boundary still yields its
single event once the remaining bytes arrive. -/
theorem c1_chunk_boundary_independence (cs₁ cs₂ : List (List Char))
    (h : cs₁.flatten = cs₂.flatten) : runChunks cs₁ = runChunks cs₂ := by
  unfold runChunks
  rw [runChunksFrom_eq_processAll cs₁ [] rfl, runChunksFrom_eq_processAll cs₂ [] rfl, h]

/-- Witness for C1: the spec's scenario of a chunk boundary inside
`data: {"type":"text-delta","delta":"X"}` — both deliveries emit the one
`text-delta` event with delta `X` and the default block id. -/
theorem c1_witness :
    runChunks ["data: \x7b\"type\":\"text-delta\",\"del".toList, "ta\":\"X\"\x7d\n\n".toList]
      = runChunks ["data: \x7b\"type\":\"text-delta\",\"delta\":\"X\"\x7d\n\n".toList]
    ∧ runChunks ["data: \x7b\"type\":\"text-delta\",\"delta\":\"X\"\x7d\n\n".toList]
      = [StreamPart.textDelta "text-block".toList "X".toList] :=
  ⟨c1_chunk_boundary_independence _ _ rfl, rfl⟩

/-- C9: invariant of the frame reassembler — after each `transform`
call the retained buffer holds no frame separator, so every complete
frame was extracted and handled within that call and none is carried
over to a later chunk. -/
theorem c9_buffer_separator_free (buffer chunk : List Char) :
    hasSep (transformStep buffer chunk).2 = false :=
  splitFrames_rem_no_sep (buffer ++ chunk)

/-- C2, counterexample to the claim as stated: the guard uses
`startsWith`, so the frame `data: [DONE]extra` is silently discarded even
though it is neither empty after trimming nor equal to the sentinel. -/
theorem c2_counterexample :
    isDiscarded "data: [DONE]extra".toList = true
    ∧ processMessage "data: [DONE]extra".toList = []
    ∧ ¬(trimChars "data: [DONE]extra".toList = []
        ∨ "data: [DONE]extra".toList = "data: [DONE]".toList) :=
  ⟨rfl, rfl, by decide⟩

/-- C2 as amended: a frame is hit by the silent-discard guard iff it is
empty after trimming whitespace or it starts with `data: [DONE]`; a
frame the guard hits produces no output event. -/
theorem c2_discard_guard (m : List Char) :
    (isDiscarded m = true ↔ (trimChars m = [] ∨ startsWithChars doneTag m = true))
    ∧ (isDiscarded m = true → processMessage m = []) := by
  constructor
  · simp [isDiscarded, List.isEmpty_iff]
  · intro h
    simp [processMessage, h]

/-- Witness for C2's amended theorem on a whitespace-only frame. -/
theorem c2_witness : processMessage "   ".toList = [] :=
  (c2_discard_guard "   ".toList).2 (by decide)

/-- C3: a frame whose payload fails `JSON.parse` or fails schema
validation emits nothing (the failure is swallowed, the transform
returns normally), and removing it from any frame sequence leaves the
output of all other frames unchanged — later valid frames still
translate normally. -/
theorem c3_malformed_frames (m : List Char)
    (h : jsonParse (dropDataTag m) = none
      ∨ ∃ j, jsonParse (dropDataTag m) = some j ∧ validateEvent j = none) :
    processMessage m = []
    ∧ ∀ pre post : List (List Char),
        (pre ++ m :: post).flatMap processMessage
          = (pre ++ post).flatMap processMessage := by
  have hpm : processMessage m = [] := by
    unfold processMessage
    by_cases hd : isDiscarded m
    · simp [hd]
    · rcases h with h | ⟨j, hj, hv⟩
      · simp [hd, h]
      · simp [hd, hj, hv]
  exact ⟨hpm, fun pre post => by simp [hpm]⟩

/-- Witness for C3: a syntactically broken payload, and a frame with an
unknown `type` sitting between two valid frames whose output it does not
disturb. -/
theorem c3_witness :
    processMessage "data: not json".toList = []
    ∧ (["data: \x7b\"type\":\"start\"\x7d".toList] ++
        "data: \x7b\"type\":\"bogus\"\x7d".toList ::
          ["data: \x7b\"type\":\"text-end\"\x7d".toList]).flatMap processMessage
      = (["data: \x7b\"type\":\"start\"\x7d".toList] ++
          ["data: \x7b\"type\":\"text-end\"\x7d".toList]).flatMap processMessage :=
  ⟨(c3_malformed_frames "data: not json".toList (Or.inl rfl)).1,
   (c3_malformed_frames "data: \x7b\"type\":\"bogus\"\x7d".toList
      (Or.inr ⟨JsonVal.jobj [("type".toList, JsonVal.jstr "bogus".toList)], rfl, rfl⟩)).2
     ["data: \x7b\"type\":\"start\"\x7d".toList]
     ["data: \x7b\"type\":\"text-end\"\x7d".toList]⟩

/-- Appending anything to a segment keeps it a leading segment. -/
theorem startsWithChars_append (p r : List Char) : startsWithChars p (p ++ r) = true := by
  induction p with
  | nil => rfl
  | cons c cs ih => simp [startsWithChars, ih]

/-- C10: exactly one leading `data: ` tag is removed before JSON
parsing; a frame without the tag is parsed as-is, and in particular a
bare-JSON frame that parses and validates is translated to its normal
output events. -/
theorem c10_tag_strip (m : List Char) :
    (∀ rest, m = dataTag ++ rest → dropDataTag m = rest)
    ∧ (startsWithChars dataTag m = false → dropDataTag m = m)
    ∧ (∀ j e, isDiscarded m = false → jsonParse (dropDataTag m) = some j →
        validateEvent j = some e → processMessage m = translateEvent e) := by
  refine ⟨?_, ?_, ?_⟩
  · intro rest hrest
    subst hrest
    simp [dropDataTag, startsWithChars_append]
  · intro h
    simp [dropDataTag, h]
  · intro j e hd hj he
    simp [processMessage, hd, hj, he]

/-- Witness for C10: a doubled tag loses exactly one copy, an untagged
frame is untouched, and a bare-JSON `start` frame still emits its
`stream-start` event. -/
theorem c10_witness :
    dropDataTag "data: data: x".toList = "data: x".toList
    ∧ dropDataTag "hello".toList = "hello".toList
    ∧ processMessage "\x7b\"type\":\"start\"\x7d".toList = [StreamPart.streamStart] :=
  ⟨(c10_tag_strip "data: data: x".toList).1 "data: x".toList rfl,
   (c10_tag_strip "hello".toList).2.1 rfl,
   ((c10_tag_strip "\x7b\"type\":\"start\"\x7d".toList).2.2
      (JsonVal.jobj [("type".toList, JsonVal.jstr "start".toList)])
      ⟨.start, none, none, none, none, none, none, none, none⟩
      rfl rfl rfl).trans rfl⟩

/-- C4: the `doStream` preconditions fail fast.  A missing
`Authorization` header produces the authentication failure; with the
credential present, a prompt containing a non-text part produces the
unsupported-functionality failure naming that part's type; and under
either condition the call never reaches the `.request` outcome — the
only constructor carrying the outbound `fetch`, so no network request is
issued and no output event can be produced. -/
theorem c4_fail_fast (modelId : List Char)
    (headers : Option (List (List Char × List Char))) (prompt : List PromptMessage) :
    (getHeader headers authKey = none →
        doStreamGate modelId headers prompt = .authFailure)
    ∧ (∀ t, authHeaderFalsy headers = false → firstUnsupportedMsg prompt = some t →
        doStreamGate modelId headers prompt = .unsupportedFailure t)
    ∧ (∀ body, (getHeader headers authKey = none
          ∨ ∃ t, firstUnsupportedMsg prompt = some t) →
        doStreamGate modelId headers prompt ≠ .request body) := by
  refine ⟨?_, ?_, ?_⟩
  · intro h
    simp [doStreamGate, authHeaderFalsy, h]
  · intro t hf ht
    simp [doStreamGate, hf, ht]
  · intro body h hreq
    by_cases hf : authHeaderFalsy headers = true
    · simp [doStreamGate, hf] at hreq
    · have hf' : authHeaderFalsy headers = false := by
        cases hfb : authHeaderFalsy headers
        · rfl
        · exact absurd hfb hf
      rcases h with h | ⟨t, ht⟩
      · rw [authHeaderFalsy, h] at hf'
        cases hf'
      · simp [doStreamGate, hf', ht] at hreq

/-- Witness for C4: no headers at all fails authentication; a valid
bearer token but an image part fails naming `image`. -/
theorem c4_witness :
    doStreamGate "caselaw".toList none [] = .authFailure
    ∧ doStreamGate "caselaw".toList
        (some [(authKey, "Bearer token".toList)])
        [⟨"user".toList, [⟨"image".toList, []⟩]⟩]
      = .unsupportedFailure "image".toList :=
  ⟨(c4_fail_fast "caselaw".toList none []).1 rfl,
   (c4_fail_fast "caselaw".toList (some [(authKey, "Bearer token".toList)])
      [⟨"user".toList, [⟨"image".toList, []⟩]⟩]).2.1
     "image".toList rfl rfl⟩

/-- C5: a validated `metadata` event emits exactly one `data` part
carrying the event's `data` payload unchanged when the field is present,
and nothing when it is absent. -/
theorem c5_metadata (e : LarsEvent) (h : e.type = .metadata) :
    translateEvent e = match e.data with
      | some d => [StreamPart.dataPart d]
      | none => [] := by
  unfold translateEvent
  rw [h]

/-- Witness for C5: one `metadata` event with a payload, one without. -/
theorem c5_witness :
    translateEvent ⟨.metadata, none, none, none, none, none, none, none,
        some [("k".toList, JsonVal.jbool true)]⟩
      = [StreamPart.dataPart [("k".toList, JsonVal.jbool true)]]
    ∧ translateEvent ⟨.metadata, none, none, none, none, none, none, none, none⟩ = [] :=
  ⟨(c5_metadata _ rfl).trans rfl, (c5_metadata _ rfl).trans rfl⟩

/-- C7: a validated `finish` event emits exactly one `finish` part whose
reason defaults to `stop`, whose input/output/total token counts come
from the event's `usage` or default to `0`, and whose `reasoningTokens`
is passed through unchanged — staying absent, not zeroed, when unset.
(The schema makes the three main counts required inside `usage`, so only
a missing `usage` object triggers the zero defaults.) -/
theorem c7_finish (e : LarsEvent) (h : e.type = .finish) :
    translateEvent e = [StreamPart.finishPart
      (match e.finishReason with | some r => r | none => "stop".toList)
      ⟨(match e.usage with | some u => u.inputTokens | none => jnum0),
       (match e.usage with | some u => u.outputTokens | none => jnum0),
       (match e.usage with | some u => u.totalTokens | none => jnum0),
       (match e.usage with | some u => u.reasoningTokens | none => none)⟩] := by
  unfold translateEvent
  rw [h]
  rcases e.finishReason with _ | r <;> rcases e.usage with _ | u <;> rfl

/-- Witness for C7: a bare `finish` event gets reason `stop` and
zero-filled counts with `reasoningTokens` absent; a fully populated one
passes everything through. -/
theorem c7_witness :
    translateEvent ⟨.finish, none, none, none, none, none, none, none, none⟩
      = [StreamPart.finishPart "stop".toList ⟨jnum0, jnum0, jnum0, none⟩]
    ∧ translateEvent ⟨.finish, none, none, none, none, some "length".toList,
        some ⟨⟨3, 0⟩, ⟨5, 0⟩, some ⟨2, 0⟩, ⟨8, 0⟩⟩, none, none⟩
      = [StreamPart.finishPart "length".toList ⟨⟨3, 0⟩, ⟨5, 0⟩, ⟨8, 0⟩, some ⟨2, 0⟩⟩] :=
  ⟨(c7_finish _ rfl).trans rfl, (c7_finish _ rfl).trans rfl⟩

/-- C8: every emitted `reasoning-start`/`reasoning-delta`/`reasoning-end`
and `text-start`/`text-delta`/`text-end` part carries the backend
event's `id` when present, and otherwise the fixed default
`reasoning-block` or `text-block` for its family — `Option.getD` is
exactly the `event.id ?? default` of the source. -/
theorem c8_block_ids (e : LarsEvent) :
    (e.type = .reasoningStart →
        translateEvent e = [.reasoningStart (e.id.getD rbDefault)])
    ∧ (e.type = .reasoningEnd →
        translateEvent e = [.reasoningEnd (e.id.getD rbDefault)])
    ∧ (e.type = .textStart →
        translateEvent e = [.textStart (e.id.getD tbDefault)])
    ∧ (e.type = .textEnd →
        translateEvent e = [.textEnd (e.id.getD tbDefault)])
    ∧ (∀ d, e.type = .reasoningDelta → e.delta = some d → d ≠ [] →
        translateEvent e = [.reasoningDelta (e.id.getD rbDefault) d])
    ∧ (∀ d, e.type = .textDelta → e.delta = some d → d ≠ [] →
        translateEvent e = [.textDelta (e.id.getD tbDefault) d]) := by
  refine ⟨?_, ?_, ?_, ?_, ?_, ?_⟩
  · intro h; unfold translateEvent; rw [h]
  · intro h; unfold translateEvent; rw [h]
  · intro h; unfold translateEvent; rw [h]
  · intro h; unfold translateEvent; rw [h]
  · intro d h hd hne
    unfold translateEvent
    rw [h, hd]
    simp [hne]
  · intro d h hd hne
    unfold translateEvent
    rw [h, hd]
    simp [hne]

/-- Witness for C8: an explicit id is carried through; an absent id
falls back to the family default. -/
theorem c8_witness :
    translateEvent ⟨.reasoningStart, none, some "r1".toList, none, none, none,
        none, none, none⟩
      = [StreamPart.reasoningStart "r1".toList]
    ∧ translateEvent ⟨.textDelta, none, none, some "Hi".toList, none, none,
        none, none, none⟩
      = [StreamPart.textDelta "text-block".toList "Hi".toList] :=
  ⟨((c8_block_ids _).1 rfl).trans rfl,
   ((c8_block_ids _).2.2.2.2.2 "Hi".toList rfl rfl (by decide)).trans rfl⟩

/-- The delta of a `text-delta` output part. -/
def textDeltaOf : StreamPart → Option (List Char)
  | .textDelta _ d => some d
  | _ => none

/-- The full response text carried by a sequence of output parts: the
deltas of its `text-delta` parts concatenated in order. -/
def outTextDeltas (parts : List StreamPart) : List Char :=
  (parts.filterMap textDeltaOf).flatten

/-- The text a validated backend event contributes to the response: its
`delta` when it is a `text-delta` event (an empty or absent delta
contributes the empty string, exactly as it is dropped from the
output). -/
def textDeltaContrib (e : LarsEvent) : List Char :=
  match e.type, e.delta with
  | .textDelta, some d => d
  | _, _ => []

/-- Response text across a sequence of validated backend events. -/
def evtTextDeltas (es : List LarsEvent) : List Char :=
  (es.map textDeltaContrib).flatten

/-- One frame's output parts as a function of its validated event. -/
theorem processMessage_eq_validEvent (m : List Char) :
    processMessage m = match validEventOfFrame m with
      | some e => translateEvent e
      | none => [] := by
  unfold processMessage validEventOfFrame
  by_cases hd : isDiscarded m
  · simp [hd]
  · rcases hj : jsonParse (dropDataTag m) with _ | j
    · simp [hd, hj]
    · rcases hv : validateEvent j with _ | ev <;> simp [hd, hj, hv]

/-- The response text distributes over concatenation of part lists. -/
theorem outTextDeltas_append (xs ys : List StreamPart) :
    outTextDeltas (xs ++ ys) = outTextDeltas xs ++ outTextDeltas ys := by
  simp [outTextDeltas]

/-- The translation of one event contributes exactly the event's
text-delta text. -/
theorem outTextDeltas_translateEvent (e : LarsEvent) :
    outTextDeltas (translateEvent e) = textDeltaContrib e := by
  rcases e with ⟨ty, mi, i, de, et, fr, us, an, da⟩
  cases ty <;>
    first
    | rfl
    | (rcases da with _ | d <;> rfl)
    | (rcases de with _ | d
       · rfl
       · by_cases hd : d = [] <;>
           simp [translateEvent, textDeltaContrib, outTextDeltas, textDeltaOf, hd])

/-- C6: a `text-delta` or `reasoning-delta` event with an empty or
absent delta emits nothing, and for every frame sequence the
concatenated deltas of the emitted `text-delta` parts (in arrival
order) equal the concatenated deltas of the valid `text-delta` backend
events (in arrival order) — the full response text is reconstructed. -/
theorem c6_delta_accumulation :
    (∀ e : LarsEvent, (e.type = .textDelta ∨ e.type = .reasoningDelta) →
        (e.delta = none ∨ e.delta = some []) → translateEvent e = [])
    ∧ ∀ frames : List (List Char),
        outTextDeltas (frames.flatMap processMessage)
          = evtTextDeltas (frames.filterMap validEventOfFrame) := by
  constructor
  · intro e hty hde
    unfold translateEvent
    rcases hty with h | h <;> rw [h] <;> rcases hde with h' | h' <;> rw [h'] <;> simp
  · intro frames
    induction frames with
    | nil => rfl
    | cons m fs ih =>
      simp only [List.flatMap_cons, List.filterMap_cons]
      rw [outTextDeltas_append, processMessage_eq_validEvent m]
      rcases hv : validEventOfFrame m with _ | ev
      · simpa [outTextDeltas, evtTextDeltas] using ih
      · simp [outTextDeltas_translateEvent, evtTextDeltas, ih]

/-- Witness for C6: an empty text delta emits nothing; over a frame
sequence with a split "Hi"/" there" and one empty delta, the output
reconstructs "Hi there". -/
theorem c6_witness :
    translateEvent ⟨.textDelta, none, none, some [], none, none, none, none, none⟩ = []
    ∧ outTextDeltas
        (["data: \x7b\"type\":\"text-delta\",\"delta\":\"Hi\"\x7d".toList,
          "data: \x7b\"type\":\"text-delta\",\"delta\":\"\"\x7d".toList,
          "data: \x7b\"type\":\"text-delta\",\"delta\":\" there\"\x7d".toList].flatMap
            processMessage)
      = evtTextDeltas
          (["data: \x7b\"type\":\"text-delta\",\"delta\":\"Hi\"\x7d".toList,
            "data: \x7b\"type\":\"text-delta\",\"delta\":\"\"\x7d".toList,
            "data: \x7b\"type\":\"text-delta\",\"delta\":\" there\"\x7d".toList].filterMap
              validEventOfFrame) :=
  ⟨c6_delta_accumulation.1 _ (Or.inl rfl) (Or.inr rfl),
   c6_delta_accumulation.2 _⟩
